import Mathlib

/-!
Shallow embedding of the `PolygonalROIVehicleCounter` class from
`src/main.ipynb` (Vehicle-detection repository), together with proofs of the
specification's claims about it.

Coordinates are modelled as exact rationals (the source computes with Python
floats), machine-learning / OpenCV / video-I/O collaborators are modelled at
their interfaces: a processed frame is a list of tracked detections, exactly
the data the per-detection loop of `process_frame` (lines 246-274) consumes.
-/

namespace VehicleCounter

/-- A pixel-space bounding box `(x1, y1, x2, y2)`, in the source's order. -/
structure Box where
  x1 : ℚ
  y1 : ℚ
  x2 : ℚ
  y2 : ℚ
deriving DecidableEq

/-- One tracked detection handed to the per-detection loop of `process_frame`:
the tuple `(box, track_id, cls, conf)` produced by `model.track` (lines 240-246). -/
structure Detection where
  track_id : Int
  cls : Int
  box : Box
  conf : ℚ
deriving DecidableEq

/-- The value stored in the `current_vehicles_in_frame` / `current_vehicles_in_roi`
dictionaries: `{'class': class_name, 'box': box, 'confidence': conf}` (lines 250-262). -/
structure VehicleInfo where
  cls : String
  box : Box
  confidence : ℚ
deriving DecidableEq

/-- A count event, modelling the console line printed when a new identity is
counted (line 268): class name, track id, and the running total after the add. -/
structure CountEvent where
  track_id : Int
  cls : String
  total : Nat
deriving DecidableEq

/-- The mutable state of a `PolygonalROIVehicleCounter` relevant to counting:
the attributes initialised at lines 29-43 of `__init__` (model/CLAHE/timing
collaborators omitted; `track_history` is a `defaultdict(list)`, modelled as a
total function that is `[]` off the stored keys). -/
structure CounterState where
  track_history : Int → List (Int × Int)
  seen_ids : Finset Int
  vehicle_counts : List (String × Nat)
  current_vehicles_in_frame : List (Int × VehicleInfo)
  current_vehicles_in_roi : List (Int × VehicleInfo)
  roi_points : List (Int × Int)
  roi_defined : Bool
  frame_count : Nat

/-- The freshly constructed counter (`__init__`, lines 29-43). -/
def initState : CounterState :=
  { track_history := fun _ => []
    seen_ids := (∅ : Finset Int)
    vehicle_counts := []
    current_vehicles_in_frame := []
    current_vehicles_in_roi := []
    roi_points := []
    roi_defined := false
    frame_count := 0 }

/-- Python `int()` applied to an exact rational: truncation toward zero. -/
def pyTrunc (q : ℚ) : Int := if 0 ≤ q then ⌊q⌋ else -⌊-q⌋

/-- The `vehicle_classes` dictionary (lines 25-27). -/
def vehicle_classes (c : Int) : Option String :=
  if c = 2 then some ("car")
  else if c = 3 then some ("motorcycle")
  else if c = 5 then some ("bus")
  else if c = 7 then some ("truck")
  else none

/-- `self.vehicle_classes.get(cls, 'unknown')` (line 247). -/
def className (c : Int) : String := (vehicle_classes c).getD ("unknown")

/-- Exact test that a point lies on the closed segment from `a` to `b`. -/
def onEdge (a b : Int × Int) (p : ℚ × ℚ) : Bool :=
  decide (((b.1 : ℚ) - (a.1 : ℚ)) * (p.2 - (a.2 : ℚ)) = ((b.2 : ℚ) - (a.2 : ℚ)) * (p.1 - (a.1 : ℚ))
    ∧ min (a.1 : ℚ) (b.1 : ℚ) ≤ p.1 ∧ p.1 ≤ max (a.1 : ℚ) (b.1 : ℚ)
    ∧ min (a.2 : ℚ) (b.2 : ℚ) ≤ p.2 ∧ p.2 ≤ max (a.2 : ℚ) (b.2 : ℚ))

/-- Half-open crossing test: the horizontal ray from `p` toward `+x` crosses the
segment from `a` to `b`. -/
def rayCrosses (a b : Int × Int) (p : ℚ × ℚ) : Bool :=
  decide ((((a.2 : ℚ) ≤ p.2 ∧ p.2 < (b.2 : ℚ)) ∨ ((b.2 : ℚ) ≤ p.2 ∧ p.2 < (a.2 : ℚ)))
    ∧ p.1 < (a.1 : ℚ) + (p.2 - (a.2 : ℚ)) * ((b.1 : ℚ) - (a.1 : ℚ)) / ((b.2 : ℚ) - (a.2 : ℚ)))

/-- The edges of a closed polygon: consecutive vertex pairs, last back to first. -/
def polyEdges (poly : List (Int × Int)) : List ((Int × Int) × (Int × Int)) :=
  match poly with
  | [] => []
  | v :: _ => poly.zip (poly.drop 1 ++ [v])

/-- Modelled from the spec: the Polygon Membership Test leaf (spec section 4.1) is the
external library call `cv2.pointPolygonTest(contour, point, False)` (line 170), whose
contract returns a positive value for a point inside the closed polygon, `0` for a
point on an edge or vertex, and a negative value outside, deciding interior
membership by the even-odd ray-casting rule. -/
def pointPolygonTest (poly : List (Int × Int)) (p : ℚ × ℚ) : Int :=
  if (polyEdges poly).any (fun e => onEdge e.1 e.2 p) then 0
  else if ((polyEdges poly).countP (fun e => rayCrosses e.1 e.2 p)) % 2 = 1 then 1
  else -1

/-- `is_point_in_roi` as a function of the two ROI fields it reads (lines 162-171):
fail-open when no ROI is defined or it has fewer than 3 points, otherwise
`pointPolygonTest(...) >= 0`. -/
def pointInRoiFlag (roiDef : Bool) (pts : List (Int × Int)) (p : ℚ × ℚ) : Bool :=
  if roiDef = false ∨ pts.length < 3 then true
  else decide (0 ≤ pointPolygonTest pts p)

/-- `is_point_in_roi` (lines 162-171). -/
def is_point_in_roi (s : CounterState) (p : ℚ × ℚ) : Bool :=
  pointInRoiFlag s.roi_defined s.roi_points p

/-- The nine `check_points` of a bounding box (lines 184-192): center, the four
corners, then the four edge midpoints, in the source's order. -/
def checkPoints (b : Box) : List (ℚ × ℚ) :=
  [((b.x1 + b.x2) / 2, (b.y1 + b.y2) / 2),
   (b.x1, b.y1), (b.x2, b.y1), (b.x1, b.y2), (b.x2, b.y2),
   ((b.x1 + b.x2) / 2, b.y1), ((b.x1 + b.x2) / 2, b.y2),
   (b.x1, (b.y1 + b.y2) / 2), (b.x2, (b.y1 + b.y2) / 2)]

/-- `is_vehicle_in_roi` as a function of the two ROI fields it reads (lines 173-201):
fail-open when no ROI is defined, otherwise true iff
`points_inside >= len(check_points) * 0.3`. -/
def vehicleInRoiFlag (roiDef : Bool) (pts : List (Int × Int)) (b : Box) : Bool :=
  if roiDef = false then true
  else
    let cps := checkPoints b
    let points_inside := cps.countP (fun p => pointInRoiFlag roiDef pts p)
    decide ((cps.length : ℚ) * (0.3 : ℚ) ≤ (points_inside : ℚ))

/-- `is_vehicle_in_roi` (lines 173-201). -/
def is_vehicle_in_roi (s : CounterState) (b : Box) : Bool :=
  vehicleInRoiFlag s.roi_defined s.roi_points b

/-- The keys of one of the current-frame dictionaries. -/
def keysOf (l : List (Int × VehicleInfo)) : List Int := l.map Prod.fst

/-- Python `dict` assignment `d[k] = v`: overwrite in place when the key exists,
append otherwise (insertion order preserved). -/
def dinsert (k : Int) (v : VehicleInfo) (l : List (Int × VehicleInfo)) :
    List (Int × VehicleInfo) :=
  if k ∈ keysOf l then l.map (fun q => if q.1 = k then (k, v) else q)
  else l ++ [(k, v)]

/-- `self.vehicle_counts[class_name] += 1` on a `defaultdict(int)`: bump the
stored value when the key exists, insert it with value 1 otherwise. -/
def bump : List (String × Nat) → String → List (String × Nat)
  | [], c => [(c, 1)]
  | (k, v) :: rest, c => if k = c then (k, v + 1) :: rest else (k, v) :: bump rest c

/-- A `defaultdict(int)` read: the stored count of a class label, 0 if absent. -/
def lookupCount (l : List (String × Nat)) (c : String) : Nat :=
  (((l.find? (fun q => q.1 = c)).map Prod.snd).getD 0)

/-- The total of all per-class counts. -/
def sumCounts (l : List (String × Nat)) : Nat := (l.map Prod.snd).sum

/-- The centroid stored into `track_history` (line 271):
`int((x1+x2)/2), int((y1+y2)/2)`. -/
def centroid (b : Box) : Int × Int :=
  (pyTrunc ((b.x1 + b.x2) / 2), pyTrunc ((b.y1 + b.y2) / 2))

/-- One trajectory-history update (lines 272-274): append the centroid, then
`pop(0)` when the length exceeds 30. -/
def pushHistory (h : List (Int × Int)) (p : Int × Int) : List (Int × Int) :=
  let h2 := h ++ [p]
  if 30 < h2.length then h2.tail else h2

/-- The dictionary value stored for a detection (lines 250-254 and 258-262). -/
def detInfo (d : Detection) : VehicleInfo :=
  { cls := className d.cls, box := d.box, confidence := d.conf }

/-- The body of the per-detection loop of `process_frame` (lines 246-274), together
with the count event emitted when a new identity is counted (line 268):
store into `current_vehicles_in_frame`; if the box is classified in-ROI, store into
`current_vehicles_in_roi` and, when the identity is unseen, add it to `seen_ids`
and bump its class count; finally push the centroid onto the track history. -/
def processDetE (s : CounterState) (d : Detection) : CounterState × Option CountEvent :=
  let s1 := { s with
    current_vehicles_in_frame := dinsert d.track_id (detInfo d) s.current_vehicles_in_frame }
  let p2 :=
    if is_vehicle_in_roi s1 d.box then
      let s2 := { s1 with
        current_vehicles_in_roi := dinsert d.track_id (detInfo d) s1.current_vehicles_in_roi }
      if d.track_id ∈ s2.seen_ids then (s2, none)
      else
        let s3 := { s2 with
          seen_ids := insert d.track_id s2.seen_ids
          vehicle_counts := bump s2.vehicle_counts (className d.cls) }
        (s3, some { track_id := d.track_id, cls := className d.cls, total := s3.seen_ids.card })
    else (s1, none)
  let s4 := p2.1
  ({ s4 with track_history := fun tid =>
      if tid = d.track_id then pushHistory (s4.track_history tid) (centroid d.box)
      else s4.track_history tid }, p2.2)

/-- The state after processing one detection. -/
def procDet (s : CounterState) (d : Detection) : CounterState := (processDetE s d).1

/-- Folding step threading the event log through the per-detection loop. -/
def detStep (p : CounterState × List CountEvent) (d : Detection) :
    CounterState × List CountEvent :=
  ((processDetE p.1 d).1, p.2 ++ (processDetE p.1 d).2.toList)

/-- The frame prologue of `process_frame` (lines 220, 236-238): bump `frame_count`
and clear both current-frame dictionaries. -/
def clearFrame (s : CounterState) : CounterState :=
  { s with
    frame_count := s.frame_count + 1
    current_vehicles_in_frame := []
    current_vehicles_in_roi := [] }

/-- `process_frame` (lines 216-274) on one frame's worth of tracked detections,
returning the new state and the frame's count events. -/
def processFrameE (s : CounterState) (dets : List Detection) :
    CounterState × List CountEvent :=
  dets.foldl detStep (clearFrame s, [])

/-- The state after `process_frame`. -/
def process_frame (s : CounterState) (dets : List Detection) : CounterState :=
  (processFrameE s dets).1

/-- The count events emitted while processing one frame. -/
def frameEvents (s : CounterState) (dets : List Detection) : List CountEvent :=
  (processFrameE s dets).2

/-- Folding step threading the event log through a sequence of frames. -/
def frameStep (p : CounterState × List CountEvent) (dets : List Detection) :
    CounterState × List CountEvent :=
  ((processFrameE p.1 dets).1, p.2 ++ (processFrameE p.1 dets).2)

/-- A session segment: a sequence of frames processed with no intervening reset. -/
def processFramesE (s : CounterState) (frames : List (List Detection)) :
    CounterState × List CountEvent :=
  frames.foldl frameStep (s, [])

/-- The state after a sequence of frames. -/
def processFrames (s : CounterState) (frames : List (List Detection)) : CounterState :=
  (processFramesE s frames).1

/-- The count events emitted across a sequence of frames. -/
def sessionEvents (s : CounterState) (frames : List (List Detection)) : List CountEvent :=
  (processFramesE s frames).2

/-- The reset branch of `run` (key `r`, lines 464-469): clear `seen_ids`,
`vehicle_counts` and `track_history`; nothing else is touched. -/
def resetCounter (s : CounterState) : CounterState :=
  { s with
    seen_ids := (∅ : Finset Int)
    vehicle_counts := []
    track_history := fun _ => [] }

/-- The SPACE-confirmation branch of `define_roi_interactive` (lines 103-110):
`roi_defined` becomes true only when at least 3 points have been clicked. -/
def confirmRoi (s : CounterState) : CounterState :=
  if 3 ≤ s.roi_points.length then { s with roi_defined := true } else s

/-- `auto_define_roi` (lines 117-139): the 4-vertex rhombus inset by the 10%/15%
margins of a `w`-by-`h` frame. -/
def auto_define_roi (w h : Nat) (s : CounterState) : CounterState :=
  let center_x : Int := ((w / 2 : Nat) : Int)
  let center_y : Int := ((h / 2 : Nat) : Int)
  let margin_x : Int := pyTrunc ((w : ℚ) * (0.1 : ℚ))
  let margin_y : Int := pyTrunc ((h : ℚ) * (0.15 : ℚ))
  { s with
    roi_points := [(center_x, margin_y), ((w : Int) - margin_x, center_y),
                   (center_x, (h : Int) - margin_y), (margin_x, center_y)]
    roi_defined := true }

/-- `create_rectangular_roi` (lines 141-160): the 4 corners of the inset rectangle. -/
def create_rectangular_roi (w h : Nat) (s : CounterState) : CounterState :=
  let margin_x : Int := pyTrunc ((w : ℚ) * (0.1 : ℚ))
  let margin_y : Int := pyTrunc ((h : ℚ) * (0.15 : ℚ))
  { s with
    roi_points := [(margin_x, margin_y), ((w : Int) - margin_x, margin_y),
                   ((w : Int) - margin_x, (h : Int) - margin_y), (margin_x, (h : Int) - margin_y)]
    roi_defined := true }

/-- An operation of the counting session: a processed frame, the reset key, or one
of the three ROI-defining operations. -/
inductive Op where
  | frame (dets : List Detection)
  | reset
  | confirm
  | autoRhombus (w h : Nat)
  | autoRect (w h : Nat)

/-- Apply one session operation. -/
def applyOp (s : CounterState) : Op → CounterState
  | Op.frame dets => process_frame s dets
  | Op.reset => resetCounter s
  | Op.confirm => confirmRoi s
  | Op.autoRhombus w h => auto_define_roi w h s
  | Op.autoRect w h => create_rectangular_roi w h s

/-- Every state reachable from construction is `runOps ops` for some operation list. -/
def runOps (ops : List Op) : CounterState := ops.foldl applyOp initState

/-- The invariant claimed by C10: a confirmed ROI has at least 3 vertices. -/
def RoiInv (s : CounterState) : Prop := s.roi_defined = true → 3 ≤ s.roi_points.length

/-- A square ROI used as a concrete test polygon. -/
def sSquare : CounterState :=
  { initState with roi_points := [(0, 0), (10, 0), (10, 10), (0, 10)], roi_defined := true }

/-- A box whose samples hit the square's left edge at exactly 3 of the 9 points. -/
def box3of9 : Box := { x1 := -20, y1 := 0, x2 := 0, y2 := 10 }

/-- A box with exactly 2 of the 9 sample points inside-or-on the square. -/
def box2of9 : Box := { x1 := 4, y1 := 9, x2 := 18, y2 := 11 }

/-- A well-formed detection fully inside the square ROI. -/
def dGood : Detection := { track_id := 6, cls := 3, box := { x1 := 0, y1 := 0, x2 := 2, y2 := 2 }, conf := 1 }

/-- A malformed detection: `x1 > x2` and `y1 > y2`. -/
def dBad : Detection := { track_id := 5, cls := 2, box := { x1 := 10, y1 := 10, x2 := 3, y2 := 4 }, conf := 1 }

/-- A simple detection used by several concrete witnesses. -/
def d0 : Detection := { track_id := 1, cls := 2, box := { x1 := 0, y1 := 0, x2 := 2, y2 := 2 }, conf := 1 }

/- ------------------------------------------------------------------ -/
/- Characterisation of the per-detection loop, one field at a time.   -/
/- ------------------------------------------------------------------ -/

theorem procDet_roi_defined (s : CounterState) (d : Detection) :
    (procDet s d).roi_defined = s.roi_defined := by
  simp only [procDet, processDetE]
  split_ifs <;> rfl

theorem procDet_roi_points (s : CounterState) (d : Detection) :
    (procDet s d).roi_points = s.roi_points := by
  simp only [procDet, processDetE]
  split_ifs <;> rfl

theorem procDet_frame_count (s : CounterState) (d : Detection) :
    (procDet s d).frame_count = s.frame_count := by
  simp only [procDet, processDetE]
  split_ifs <;> rfl

theorem is_vehicle_in_roi_congr (s s' : CounterState) (b : Box)
    (hd : s'.roi_defined = s.roi_defined) (hp : s'.roi_points = s.roi_points) :
    is_vehicle_in_roi s' b = is_vehicle_in_roi s b := by
  simp only [is_vehicle_in_roi, hd, hp]

theorem procDet_seen (s : CounterState) (d : Detection) :
    (procDet s d).seen_ids =
      if is_vehicle_in_roi s d.box = true ∧ d.track_id ∉ s.seen_ids
      then insert d.track_id s.seen_ids else s.seen_ids := by
  simp only [procDet, processDetE, is_vehicle_in_roi]
  split_ifs with h1 h2 <;> simp_all

theorem procDet_counts (s : CounterState) (d : Detection) :
    (procDet s d).vehicle_counts =
      if is_vehicle_in_roi s d.box = true ∧ d.track_id ∉ s.seen_ids
      then bump s.vehicle_counts (className d.cls) else s.vehicle_counts := by
  simp only [procDet, processDetE, is_vehicle_in_roi]
  split_ifs with h1 h2 <;> simp_all

theorem procDet_frame_dict (s : CounterState) (d : Detection) :
    (procDet s d).current_vehicles_in_frame =
      dinsert d.track_id (detInfo d) s.current_vehicles_in_frame := by
  simp only [procDet, processDetE]
  split_ifs <;> rfl

theorem procDet_roi_dict (s : CounterState) (d : Detection) :
    (procDet s d).current_vehicles_in_roi =
      if is_vehicle_in_roi s d.box = true
      then dinsert d.track_id (detInfo d) s.current_vehicles_in_roi
      else s.current_vehicles_in_roi := by
  simp only [procDet, processDetE, is_vehicle_in_roi]
  split_ifs with h1 h2 <;> simp_all

theorem procDet_history (s : CounterState) (d : Detection) :
    (procDet s d).track_history = fun tid =>
      if tid = d.track_id then pushHistory (s.track_history tid) (centroid d.box)
      else s.track_history tid := by
  simp only [procDet, processDetE]
  split_ifs <;> rfl

theorem procDet_event (s : CounterState) (d : Detection) :
    (processDetE s d).2 =
      if is_vehicle_in_roi s d.box = true ∧ d.track_id ∉ s.seen_ids
      then some { track_id := d.track_id, cls := className d.cls,
                  total := (insert d.track_id s.seen_ids).card }
      else none := by
  simp only [processDetE, is_vehicle_in_roi]
  split_ifs with h1 h2 <;> simp_all

/- ------------------------------------------------------------------ -/
/- C5 / C6: the reset branch.                                         -/
/- ------------------------------------------------------------------ -/

/-- C5 (counterexample). The claim says reset also empties both current-frame
snapshots; it does not: after processing one detection and then resetting, the
"all vehicles this frame" snapshot is still non-empty (the reset branch at lines
464-469 clears only `seen_ids`, `vehicle_counts` and `track_history`). -/
theorem c5_reset_does_not_clear_snapshots :
    (resetCounter (process_frame initState [d0])).current_vehicles_in_frame ≠ [] ∧
    (resetCounter (process_frame initState [d0])).current_vehicles_in_roi ≠ [] := by
  constructor <;> decide

/-- C5 (amended). From any state, reset empties the Counted-Set, zeroes all
per-class counts, and empties every trajectory history, while leaving the
confirmed ROI polygon (`roi_points`, `roi_defined`) unchanged; the two
current-frame snapshots are left unchanged by the reset itself (they are
replaced at the start of the next processed frame, which clears both). -/
theorem c5_reset_effect (s : CounterState) :
    (resetCounter s).seen_ids = (∅ : Finset Int) ∧
    (resetCounter s).vehicle_counts = [] ∧
    (∀ c, lookupCount (resetCounter s).vehicle_counts c = 0) ∧
    (∀ tid, (resetCounter s).track_history tid = []) ∧
    (resetCounter s).roi_points = s.roi_points ∧
    (resetCounter s).roi_defined = s.roi_defined ∧
    (resetCounter s).current_vehicles_in_frame = s.current_vehicles_in_frame ∧
    (resetCounter s).current_vehicles_in_roi = s.current_vehicles_in_roi ∧
    (process_frame (resetCounter s) []).current_vehicles_in_frame = [] ∧
    (process_frame (resetCounter s) []).current_vehicles_in_roi = [] := by
  exact ⟨rfl, rfl, fun _ => rfl, fun _ => rfl, rfl, rfl, rfl, rfl, rfl, rfl⟩

/-- C6: applying the reset operation twice in a row yields exactly the same state
as applying it once, and the ROI polygon is unchanged by reset. -/
theorem c6_reset_idempotent (s : CounterState) :
    resetCounter (resetCounter s) = resetCounter s ∧
    (resetCounter s).roi_points = s.roi_points ∧
    (resetCounter s).roi_defined = s.roi_defined :=
  ⟨rfl, rfl, rfl⟩

/- ------------------------------------------------------------------ -/
/- C7: fail-open with no ROI.                                         -/
/- ------------------------------------------------------------------ -/

/-- C7: when no ROI is defined, `is_vehicle_in_roi` returns true for every
bounding box and `is_point_in_roi` returns true for every point. -/
theorem c7_fail_open (s : CounterState) (b : Box) (p : ℚ × ℚ)
    (h : s.roi_defined = false) :
    is_vehicle_in_roi s b = true ∧ is_point_in_roi s p = true := by
  constructor
  · simp [is_vehicle_in_roi, vehicleInRoiFlag, h]
  · simp [is_point_in_roi, pointInRoiFlag, h]

/-- Witness for C7 at a concrete state, box and point. -/
theorem c7_fail_open_witness :
    initState.roi_defined = false ∧
    (is_vehicle_in_roi initState d0.box = true ∧
     is_point_in_roi initState ((3 : ℚ), (4 : ℚ)) = true) :=
  ⟨rfl, c7_fail_open initState d0.box ((3 : ℚ), (4 : ℚ)) rfl⟩

/- ------------------------------------------------------------------ -/
/- Fold bridges between the event-carrying and state-only recursions. -/
/- ------------------------------------------------------------------ -/

theorem detFold_fst (dets : List Detection) (s : CounterState) (evs : List CountEvent) :
    (List.foldl detStep (s, evs) dets).1 = List.foldl procDet s dets := by
  induction dets generalizing s evs with
  | nil => rfl
  | cons d rest ih =>
    simp only [List.foldl_cons, detStep, procDet]
    exact ih _ _

theorem detFold_snd (dets : List Detection) (s : CounterState) (evs : List CountEvent) :
    (List.foldl detStep (s, evs) dets).2 = evs ++ (List.foldl detStep (s, []) dets).2 := by
  induction dets generalizing s evs with
  | nil => simp
  | cons d rest ih =>
    simp only [List.foldl_cons, detStep]
    rw [ih ((processDetE s d).1) (evs ++ (processDetE s d).2.toList),
        ih ((processDetE s d).1) (List.nil ++ (processDetE s d).2.toList)]
    simp

theorem process_frame_eq (s : CounterState) (dets : List Detection) :
    process_frame s dets = List.foldl procDet (clearFrame s) dets := by
  simp only [process_frame, processFrameE, detFold_fst]

theorem frameEvents_eq (s : CounterState) (dets : List Detection) :
    frameEvents s dets = (List.foldl detStep (clearFrame s, []) dets).2 := rfl

theorem frameFold_fst (frames : List (List Detection)) (s : CounterState)
    (evs : List CountEvent) :
    (List.foldl frameStep (s, evs) frames).1 = List.foldl process_frame s frames := by
  induction frames generalizing s evs with
  | nil => rfl
  | cons f rest ih =>
    simp only [List.foldl_cons, frameStep, process_frame]
    exact ih _ _

theorem frameFold_snd (frames : List (List Detection)) (s : CounterState)
    (evs : List CountEvent) :
    (List.foldl frameStep (s, evs) frames).2 = evs ++ (List.foldl frameStep (s, []) frames).2 := by
  induction frames generalizing s evs with
  | nil => simp
  | cons f rest ih =>
    simp only [List.foldl_cons, frameStep]
    rw [ih ((processFrameE s f).1) (evs ++ (processFrameE s f).2),
        ih ((processFrameE s f).1) (List.nil ++ (processFrameE s f).2)]
    simp

theorem processFrames_eq (s : CounterState) (frames : List (List Detection)) :
    processFrames s frames = List.foldl process_frame s frames := by
  simp only [processFrames, processFramesE, frameFold_fst]

theorem processFrames_cons (s : CounterState) (f : List Detection)
    (rest : List (List Detection)) :
    processFrames s (f :: rest) = processFrames (process_frame s f) rest := by
  simp only [processFrames_eq, List.foldl_cons]

theorem sessionEvents_cons (s : CounterState) (f : List Detection)
    (rest : List (List Detection)) :
    sessionEvents s (f :: rest) = frameEvents s f ++ sessionEvents (process_frame s f) rest := by
  simp only [sessionEvents, processFramesE, List.foldl_cons, frameStep]
  rw [frameFold_snd rest ((processFrameE s f).1) (List.nil ++ (processFrameE s f).2)]
  simp only [List.nil_append]
  rfl

/- ------------------------------------------------------------------ -/
/- Preservation of the ROI fields.                                    -/
/- ------------------------------------------------------------------ -/

theorem foldProcDet_roi_defined (dets : List Detection) (s : CounterState) :
    (List.foldl procDet s dets).roi_defined = s.roi_defined := by
  induction dets generalizing s with
  | nil => rfl
  | cons d rest ih => rw [List.foldl_cons, ih, procDet_roi_defined]

theorem foldProcDet_roi_points (dets : List Detection) (s : CounterState) :
    (List.foldl procDet s dets).roi_points = s.roi_points := by
  induction dets generalizing s with
  | nil => rfl
  | cons d rest ih => rw [List.foldl_cons, ih, procDet_roi_points]

theorem process_frame_roi_defined (s : CounterState) (dets : List Detection) :
    (process_frame s dets).roi_defined = s.roi_defined := by
  rw [process_frame_eq, foldProcDet_roi_defined]; rfl

theorem process_frame_roi_points (s : CounterState) (dets : List Detection) :
    (process_frame s dets).roi_points = s.roi_points := by
  rw [process_frame_eq, foldProcDet_roi_points]; rfl

/- ------------------------------------------------------------------ -/
/- C10: a confirmed ROI has at least 3 vertices.                      -/
/- ------------------------------------------------------------------ -/

/-- C10: both auto-ROI operations confirm a polygon with at least 3 (namely 4)
vertices; the interactive confirmation only sets `roi_defined` when at least 3
points exist; and the invariant `roi_defined → len(roi_points) ≥ 3` is preserved
by interactive confirmation, by frame processing, and by reset. -/
theorem c10_roi_invariant (s : CounterState) (dets : List Detection) (w h : Nat) :
    ((auto_define_roi w h s).roi_defined = true ∧
      3 ≤ (auto_define_roi w h s).roi_points.length) ∧
    ((create_rectangular_roi w h s).roi_defined = true ∧
      3 ≤ (create_rectangular_roi w h s).roi_points.length) ∧
    ((confirmRoi s).roi_defined = true → s.roi_defined = false →
      3 ≤ (confirmRoi s).roi_points.length) ∧
    (RoiInv s → RoiInv (confirmRoi s)) ∧
    (RoiInv s → RoiInv (process_frame s dets)) ∧
    (RoiInv s → RoiInv (resetCounter s)) := by
  refine ⟨⟨rfl, by simp [auto_define_roi]⟩, ⟨rfl, by simp [create_rectangular_roi]⟩, ?_, ?_, ?_, ?_⟩
  · simp only [confirmRoi]
    split_ifs with h3
    · intro _ _; exact h3
    · intro hdef hfalse; rw [hdef] at hfalse; cases hfalse
  · intro hinv
    simp only [RoiInv, confirmRoi]
    split_ifs with h3
    · intro _; exact h3
    · exact hinv
  · intro hinv
    simp only [RoiInv, process_frame_roi_defined, process_frame_roi_points]
    exact hinv
  · intro hinv
    exact hinv

/-- Witness for C10 at concrete inputs. -/
theorem c10_roi_invariant_witness :
    ((auto_define_roi 1280 720 initState).roi_defined = true ∧
      3 ≤ (auto_define_roi 1280 720 initState).roi_points.length) ∧
    RoiInv (confirmRoi initState) ∧
    RoiInv (process_frame initState []) ∧
    RoiInv (resetCounter initState) :=
  ⟨(c10_roi_invariant initState [] 1280 720).1,
   (c10_roi_invariant initState [] 1280 720).2.2.2.1
     (fun hdef => absurd hdef (by decide)),
   (c10_roi_invariant initState [] 1280 720).2.2.2.2.1
     (fun hdef => absurd hdef (by decide)),
   (c10_roi_invariant initState [] 1280 720).2.2.2.2.2
     (fun hdef => absurd hdef (by decide))⟩

/- ------------------------------------------------------------------ -/
/- C2: the 9-point / 30% voting rule.                                 -/
/- ------------------------------------------------------------------ -/

theorem thirtyPercentOfNine (n : ℕ) : ((9 : ℚ) * (0.3 : ℚ) ≤ (n : ℚ)) ↔ 3 ≤ n := by
  rw [show (9 : ℚ) * (0.3 : ℚ) = 27 / 10 by norm_num]
  rw [div_le_iff₀ (by norm_num : (0 : ℚ) < 10)]
  rw [show ((n : ℚ) * 10) = ((n * 10 : ℕ) : ℚ) by push_cast; ring]
  rw [show (27 : ℚ) = ((27 : ℕ) : ℚ) by norm_num]
  rw [Nat.cast_le]
  omega

/-- C2: against a confirmed polygon (defined, at least 3 vertices),
`is_vehicle_in_roi` samples exactly 9 points of the box and returns true iff at
least 3 of the 9 are classified inside-or-boundary; in particular a box with
exactly 3 of 9 samples inside is in-ROI and one with exactly 2 of 9 is outside. -/
theorem c2_nine_point_threshold (s : CounterState) (b : Box)
    (hdef : s.roi_defined = true) (_hlen : 3 ≤ s.roi_points.length) :
    (checkPoints b).length = 9 ∧
    (is_vehicle_in_roi s b = true ↔
      3 ≤ (checkPoints b).countP (fun p => is_point_in_roi s p)) ∧
    ((checkPoints b).countP (fun p => is_point_in_roi s p) = 3 →
      is_vehicle_in_roi s b = true) ∧
    ((checkPoints b).countP (fun p => is_point_in_roi s p) = 2 →
      is_vehicle_in_roi s b = false) := by
  have key : is_vehicle_in_roi s b = true ↔
      3 ≤ (checkPoints b).countP (fun p => is_point_in_roi s p) := by
    simp only [is_vehicle_in_roi, vehicleInRoiFlag, is_point_in_roi, hdef]
    simp only [Bool.true_eq_false, if_false, decide_eq_true_eq]
    rw [show (checkPoints b).length = 9 from rfl]
    exact thirtyPercentOfNine _
  refine ⟨rfl, key, ?_, ?_⟩
  · intro h3
    exact key.mpr (by omega)
  · intro h2
    rcases Bool.eq_false_or_eq_true (is_vehicle_in_roi s b) with hb | hb
    · exfalso
      have := key.mp hb
      omega
    · exact hb

/- ------------------------------------------------------------------ -/
/- C3: sum of per-class counts equals the size of the Counted-Set.    -/
/- ------------------------------------------------------------------ -/

theorem sumCounts_bump (l : List (String × Nat)) (c : String) :
    sumCounts (bump l c) = sumCounts l + 1 := by
  induction l with
  | nil => rfl
  | cons kv rest ih =>
    simp only [bump, sumCounts, List.map_cons, List.sum_cons]
    split_ifs with hk
    · simp only [List.map_cons, List.sum_cons]
      omega
    · simp only [List.map_cons, List.sum_cons, sumCounts] at ih ⊢
      omega

theorem procDet_sum_inv (s : CounterState) (d : Detection)
    (h : sumCounts s.vehicle_counts = s.seen_ids.card) :
    sumCounts (procDet s d).vehicle_counts = (procDet s d).seen_ids.card := by
  rw [procDet_counts, procDet_seen]
  split_ifs with hc
  · rw [sumCounts_bump, h, Finset.card_insert_of_not_mem hc.2]
  · exact h

theorem foldProcDet_sum_inv (dets : List Detection) (s : CounterState)
    (h : sumCounts s.vehicle_counts = s.seen_ids.card) :
    sumCounts (List.foldl procDet s dets).vehicle_counts =
      (List.foldl procDet s dets).seen_ids.card := by
  induction dets generalizing s with
  | nil => exact h
  | cons d rest ih => exact ih _ (procDet_sum_inv s d h)

theorem process_frame_sum_inv (s : CounterState) (dets : List Detection)
    (h : sumCounts s.vehicle_counts = s.seen_ids.card) :
    sumCounts (process_frame s dets).vehicle_counts =
      (process_frame s dets).seen_ids.card := by
  rw [process_frame_eq]
  exact foldProcDet_sum_inv dets (clearFrame s) h

theorem runOps_sum_inv (ops : List Op) (s : CounterState)
    (h : sumCounts s.vehicle_counts = s.seen_ids.card) :
    sumCounts (List.foldl applyOp s ops).vehicle_counts =
      (List.foldl applyOp s ops).seen_ids.card := by
  induction ops generalizing s with
  | nil => exact h
  | cons op rest ih =>
    refine ih _ ?_
    cases op with
    | frame dets => exact process_frame_sum_inv s dets h
    | reset => simp [applyOp, resetCounter, sumCounts]
    | confirm =>
      simp only [applyOp, confirmRoi]
      split_ifs <;> exact h
    | autoRhombus w hh => exact h
    | autoRect w hh => exact h

/-- C3: in every state reachable from construction by any sequence of processed
frames, resets and ROI (re)definitions, the sum over all class labels of the
per-class counts equals the size of the Counted-Set. -/
theorem c3_sum_invariant (ops : List Op) :
    sumCounts (runOps ops).vehicle_counts = (runOps ops).seen_ids.card :=
  runOps_sum_inv ops initState (by simp [initState, sumCounts])

/-- Witness for C2 on the concrete square ROI: `box3of9` has exactly 3 of its 9
sample points inside-or-boundary and is classified in-ROI; `box2of9` has exactly
2 and is classified outside. -/
theorem c2_nine_point_threshold_witness :
    (sSquare.roi_defined = true ∧ 3 ≤ sSquare.roi_points.length) ∧
    ((checkPoints box3of9).countP (fun p => is_point_in_roi sSquare p) = 3 ∧
      is_vehicle_in_roi sSquare box3of9 = true) ∧
    ((checkPoints box2of9).countP (fun p => is_point_in_roi sSquare p) = 2 ∧
      is_vehicle_in_roi sSquare box2of9 = false) := by
  have hcount3 : (checkPoints box3of9).countP (fun p => is_point_in_roi sSquare p) = 3 := by
    simp only [checkPoints, box3of9, is_point_in_roi, pointInRoiFlag, sSquare, initState,
      pointPolygonTest, polyEdges, onEdge, rayCrosses, List.countP, List.countP.go, List.any,
      List.zip, List.zipWith, List.drop, List.append_eq, List.cons_append, List.nil_append]
    norm_num
  have hcount2 : (checkPoints box2of9).countP (fun p => is_point_in_roi sSquare p) = 2 := by
    simp only [checkPoints, box2of9, is_point_in_roi, pointInRoiFlag, sSquare, initState,
      pointPolygonTest, polyEdges, onEdge, rayCrosses, List.countP, List.countP.go, List.any,
      List.zip, List.zipWith, List.drop, List.append_eq, List.cons_append, List.nil_append]
    norm_num
  refine ⟨⟨rfl, by decide⟩, ⟨hcount3, ?_⟩, ⟨hcount2, ?_⟩⟩
  · exact (c2_nine_point_threshold sSquare box3of9 rfl (by decide)).2.2.1 hcount3
  · exact (c2_nine_point_threshold sSquare box2of9 rfl (by decide)).2.2.2 hcount2

/- ------------------------------------------------------------------ -/
/- Keys of the current-frame dictionaries.                            -/
/- ------------------------------------------------------------------ -/

theorem mem_keysOf_dinsert (k : Int) (v : VehicleInfo) (l : List (Int × VehicleInfo)) (a : Int) :
    a ∈ keysOf (dinsert k v l) ↔ a = k ∨ a ∈ keysOf l := by
  simp only [dinsert]
  split_ifs with hk
  · have hmap : keysOf (List.map (fun q => if q.1 = k then (k, v) else q) l) = keysOf l := by
      simp only [keysOf, List.map_map]
      refine List.map_congr_left ?_
      intro q _
      by_cases hqk : q.1 = k
      · simp [hqk, Function.comp]
      · simp [hqk, Function.comp]
    rw [hmap]
    constructor
    · exact fun h => Or.inr h
    · rintro (rfl | h)
      · exact hk
      · exact h
  · simp only [keysOf, List.map_append, List.mem_append, List.map_cons, List.map_nil,
      List.mem_singleton, List.mem_cons, List.not_mem_nil, or_false]
    tauto

theorem mem_keysOf_dinsert_self (k : Int) (v : VehicleInfo) (l : List (Int × VehicleInfo)) :
    k ∈ keysOf (dinsert k v l) :=
  (mem_keysOf_dinsert k v l k).mpr (Or.inl rfl)

theorem mem_keysOf_dinsert_of_mem (k : Int) (v : VehicleInfo) (l : List (Int × VehicleInfo))
    (a : Int) (h : a ∈ keysOf l) : a ∈ keysOf (dinsert k v l) :=
  (mem_keysOf_dinsert k v l a).mpr (Or.inr h)

/- ------------------------------------------------------------------ -/
/- Membership in the Counted-Set after a detection fold.              -/
/- ------------------------------------------------------------------ -/

theorem foldProcDet_seen_iff (dets : List Detection) (s : CounterState) (a : Int) :
    a ∈ (List.foldl procDet s dets).seen_ids ↔
      a ∈ s.seen_ids ∨ ∃ d ∈ dets, d.track_id = a ∧ is_vehicle_in_roi s d.box = true := by
  induction dets generalizing s with
  | nil => simp
  | cons d rest ih =>
    rw [List.foldl_cons, ih]
    have hcongr : ∀ b, is_vehicle_in_roi (procDet s d) b = is_vehicle_in_roi s b := fun b =>
      is_vehicle_in_roi_congr s (procDet s d) b (procDet_roi_defined s d) (procDet_roi_points s d)
    simp only [hcongr, procDet_seen, List.mem_cons]
    split_ifs with hc
    · simp only [Finset.mem_insert]
      constructor
      · rintro ((rfl | h) | ⟨d2, hd2, rfl, hroi⟩)
        · exact Or.inr ⟨d, Or.inl rfl, rfl, hc.1⟩
        · exact Or.inl h
        · exact Or.inr ⟨d2, Or.inr hd2, rfl, hroi⟩
      · rintro (h | ⟨d2, (rfl | hd2), rfl, hroi⟩)
        · exact Or.inl (Or.inr h)
        · exact Or.inl (Or.inl rfl)
        · exact Or.inr ⟨d2, hd2, rfl, hroi⟩
    · constructor
      · rintro (h | ⟨d2, hd2, rfl, hroi⟩)
        · exact Or.inl h
        · exact Or.inr ⟨d2, Or.inr hd2, rfl, hroi⟩
      · rintro (h | ⟨d2, (rfl | hd2), rfl, hroi⟩)
        · exact Or.inl h
        · rcases not_and_or.mp hc with hno | hin
          · exact absurd hroi hno
          · exact Or.inl (not_not.mp hin)
        · exact Or.inr ⟨d2, hd2, rfl, hroi⟩

theorem process_frame_seen_iff (s : CounterState) (dets : List Detection) (a : Int) :
    a ∈ (process_frame s dets).seen_ids ↔
      a ∈ s.seen_ids ∨ ∃ d ∈ dets, d.track_id = a ∧ is_vehicle_in_roi s d.box = true := by
  rw [process_frame_eq, foldProcDet_seen_iff]
  have hcongr : ∀ b, is_vehicle_in_roi (clearFrame s) b = is_vehicle_in_roi s b := fun b =>
    is_vehicle_in_roi_congr s (clearFrame s) b rfl rfl
  simp only [hcongr]
  rfl

theorem processFrames_seen_iff (frames : List (List Detection)) (s : CounterState) (a : Int) :
    a ∈ (processFrames s frames).seen_ids ↔
      a ∈ s.seen_ids ∨
        ∃ f ∈ frames, ∃ d ∈ f, d.track_id = a ∧ is_vehicle_in_roi s d.box = true := by
  induction frames generalizing s with
  | nil => simp [processFrames, processFramesE]
  | cons f rest ih =>
    rw [processFrames_cons, ih]
    have hcongr : ∀ b, is_vehicle_in_roi (process_frame s f) b = is_vehicle_in_roi s b := fun b =>
      is_vehicle_in_roi_congr s (process_frame s f) b
        (process_frame_roi_defined s f) (process_frame_roi_points s f)
    simp only [hcongr, process_frame_seen_iff, List.mem_cons]
    constructor
    · rintro ((h | ⟨d2, hd2, rfl, hroi⟩) | ⟨f2, hf2, d2, hd2, rfl, hroi⟩)
      · exact Or.inl h
      · exact Or.inr ⟨f, Or.inl rfl, d2, hd2, rfl, hroi⟩
      · exact Or.inr ⟨f2, Or.inr hf2, d2, hd2, rfl, hroi⟩
    · rintro (h | ⟨f2, (rfl | hf2), d2, hd2, rfl, hroi⟩)
      · exact Or.inl (Or.inl h)
      · exact Or.inl (Or.inr ⟨d2, hd2, rfl, hroi⟩)
      · exact Or.inr ⟨f2, hf2, d2, hd2, rfl, hroi⟩

/- ------------------------------------------------------------------ -/
/- C9: snapshot subset and newly counted identities.                  -/
/- ------------------------------------------------------------------ -/

theorem foldProcDet_snapshots (dets : List Detection) (s : CounterState) (seen0 : Finset Int)
    (hsub : ∀ a, a ∈ keysOf s.current_vehicles_in_roi → a ∈ keysOf s.current_vehicles_in_frame)
    (hseen : ∀ a, a ∈ s.seen_ids → a ∈ seen0 ∨ a ∈ keysOf s.current_vehicles_in_roi) :
    (∀ a, a ∈ keysOf (List.foldl procDet s dets).current_vehicles_in_roi →
      a ∈ keysOf (List.foldl procDet s dets).current_vehicles_in_frame) ∧
    (∀ a, a ∈ (List.foldl procDet s dets).seen_ids →
      a ∈ seen0 ∨ a ∈ keysOf (List.foldl procDet s dets).current_vehicles_in_roi) := by
  induction dets generalizing s with
  | nil => exact ⟨hsub, hseen⟩
  | cons d rest ih =>
    rw [List.foldl_cons]
    refine ih (procDet s d) ?_ ?_
    · intro a ha
      rw [procDet_roi_dict] at ha
      rw [procDet_frame_dict]
      split_ifs at ha with hroi
      · rcases (mem_keysOf_dinsert _ _ _ a).mp ha with rfl | ha2
        · exact mem_keysOf_dinsert_self _ _ _
        · exact mem_keysOf_dinsert_of_mem _ _ _ a (hsub a ha2)
      · exact mem_keysOf_dinsert_of_mem _ _ _ a (hsub a ha)
    · intro a ha
      rw [procDet_seen] at ha
      rw [procDet_roi_dict]
      by_cases hroi : is_vehicle_in_roi s d.box = true
      · rw [if_pos hroi]
        by_cases hnew : d.track_id ∈ s.seen_ids
        · rw [if_neg (by tauto)] at ha
          rcases hseen a ha with h0 | hr
          · exact Or.inl h0
          · exact Or.inr (mem_keysOf_dinsert_of_mem _ _ _ a hr)
        · rw [if_pos ⟨hroi, hnew⟩] at ha
          rcases Finset.mem_insert.mp ha with rfl | ha2
          · exact Or.inr (mem_keysOf_dinsert_self _ _ _)
          · rcases hseen a ha2 with h0 | hr
            · exact Or.inl h0
            · exact Or.inr (mem_keysOf_dinsert_of_mem _ _ _ a hr)
      · rw [if_neg hroi]
        rw [if_neg (by tauto)] at ha
        rcases hseen a ha with h0 | hr
        · exact Or.inl h0
        · exact Or.inr hr

/-- C9: after any processed frame, the identities of the "vehicles in ROI this
frame" snapshot are a subset of those of the "all vehicles this frame" snapshot,
and every identity newly added to the Counted-Set during that frame appears in
the in-ROI snapshot. -/
theorem c9_snapshot_subset (s : CounterState) (dets : List Detection) :
    (∀ a, a ∈ keysOf (process_frame s dets).current_vehicles_in_roi →
      a ∈ keysOf (process_frame s dets).current_vehicles_in_frame) ∧
    (∀ a, a ∈ (process_frame s dets).seen_ids → a ∉ s.seen_ids →
      a ∈ keysOf (process_frame s dets).current_vehicles_in_roi) := by
  rw [process_frame_eq]
  have h := foldProcDet_snapshots dets (clearFrame s) s.seen_ids
    (fun a ha => by simp [clearFrame, keysOf] at ha)
    (fun a ha => Or.inl ha)
  refine ⟨h.1, ?_⟩
  intro a ha hnot
  rcases h.2 a ha with h0 | hr
  · exact absurd h0 hnot
  · exact hr

/-- Witness for C9 at a concrete frame. -/
theorem c9_snapshot_subset_witness :
    1 ∈ keysOf (process_frame initState [d0]).current_vehicles_in_frame ∧
    1 ∈ keysOf (process_frame initState [d0]).current_vehicles_in_roi :=
  ⟨(c9_snapshot_subset initState [d0]).1 1 (by decide),
   (c9_snapshot_subset initState [d0]).2 1 (by decide) (by decide)⟩

/- ------------------------------------------------------------------ -/
/- C8: malformed detections are not rejected.                         -/
/- ------------------------------------------------------------------ -/

theorem foldProcDet_frame_keys_mono (dets : List Detection) :
    ∀ (s : CounterState) (a : Int), a ∈ keysOf s.current_vehicles_in_frame →
      a ∈ keysOf (List.foldl procDet s dets).current_vehicles_in_frame := by
  induction dets with
  | nil => intro s a h; exact h
  | cons d rest ih =>
    intro s a h
    rw [List.foldl_cons]
    refine ih (procDet s d) a ?_
    rw [procDet_frame_dict]
    exact mem_keysOf_dinsert_of_mem _ _ _ a h

theorem foldProcDet_mem_frame (dets : List Detection) :
    ∀ (s : CounterState) (d : Detection), d ∈ dets →
      d.track_id ∈ keysOf (List.foldl procDet s dets).current_vehicles_in_frame := by
  induction dets with
  | nil => intro s d hd; cases hd
  | cons d2 rest ih =>
    intro s d hd
    rw [List.foldl_cons]
    rcases List.mem_cons.mp hd with rfl | hd2
    · refine foldProcDet_frame_keys_mono rest (procDet s d) d.track_id ?_
      rw [procDet_frame_dict]
      exact mem_keysOf_dinsert_self _ _ _
    · exact ih (procDet s d2) d hd2

theorem process_frame_mem_frame (s : CounterState) (dets : List Detection) (d : Detection)
    (hd : d ∈ dets) :
    d.track_id ∈ keysOf (process_frame s dets).current_vehicles_in_frame := by
  rw [process_frame_eq]
  exact foldProcDet_mem_frame dets (clearFrame s) d hd

/-- C8 (counterexample). The claim says a malformed detection (inverted box
coordinates) is rejected and neither counted nor stored; the code has no such
validation: with no ROI defined, `dBad` (with `x2 < x1` and `y2 < y1`) is stored
in the frame snapshot, counted into the Counted-Set, and its class count is
incremented, while the rest of the frame is also processed. -/
theorem c8_no_rejection_counterexample :
    dBad.box.x2 < dBad.box.x1 ∧ dBad.box.y2 < dBad.box.y1 ∧
    5 ∈ keysOf (process_frame initState [dBad, dGood]).current_vehicles_in_frame ∧
    5 ∈ (process_frame initState [dBad, dGood]).seen_ids ∧
    lookupCount (process_frame initState [dBad, dGood]).vehicle_counts ("car") = 1 ∧
    6 ∈ keysOf (process_frame initState [dBad, dGood]).current_vehicles_in_frame := by
  refine ⟨by norm_num [dBad], by norm_num [dBad], by decide, by decide, by decide, by decide⟩

/-- C8 (amended). A malformed detection (inverted box coordinates, `x2 < x1` or
`y2 < y1`) is not rejected: it is stored in the "all vehicles this frame"
snapshot like any other detection, every remaining detection of the frame is
still processed (the frame is not aborted), and if its box is classified in-ROI
it is even added to the Counted-Set. -/
theorem c8_malformed_not_rejected (s : CounterState) (d : Detection) (rest : List Detection)
    (_hmal : d.box.x2 < d.box.x1 ∨ d.box.y2 < d.box.y1) :
    d.track_id ∈ keysOf (process_frame s (d :: rest)).current_vehicles_in_frame ∧
    (∀ d2 ∈ rest, d2.track_id ∈ keysOf (process_frame s (d :: rest)).current_vehicles_in_frame) ∧
    (is_vehicle_in_roi s d.box = true →
      d.track_id ∈ (process_frame s (d :: rest)).seen_ids) := by
  refine ⟨process_frame_mem_frame s _ d (List.mem_cons_self d rest), ?_, ?_⟩
  · intro d2 hd2
    exact process_frame_mem_frame s _ d2 (List.mem_cons_of_mem d hd2)
  · intro hroi
    exact (process_frame_seen_iff s (d :: rest) d.track_id).mpr
      (Or.inr ⟨d, List.mem_cons_self d rest, rfl, hroi⟩)

/-- Witness for the amended C8 at a concrete malformed detection. -/
theorem c8_malformed_not_rejected_witness :
    dBad.track_id ∈ keysOf (process_frame initState [dBad, dGood]).current_vehicles_in_frame ∧
    dGood.track_id ∈ keysOf (process_frame initState [dBad, dGood]).current_vehicles_in_frame ∧
    dBad.track_id ∈ (process_frame initState [dBad, dGood]).seen_ids := by
  have h := c8_malformed_not_rejected initState dBad [dGood] (Or.inl (by norm_num [dBad]))
  exact ⟨h.1, h.2.1 dGood (by simp), h.2.2 (by decide)⟩

/- ------------------------------------------------------------------ -/
/- C4: the 30-point FIFO trajectory history.                          -/
/- ------------------------------------------------------------------ -/

theorem pushHistory_eq_drop (h : List (Int × Int)) (p : Int × Int) (hle : h.length ≤ 30) :
    pushHistory h p = (h ++ [p]).drop (h.length + 1 - 30) := by
  simp only [pushHistory, List.length_append, List.length_singleton]
  split_ifs with hgt
  · have hk : h.length + 1 - 30 = 1 := by omega
    rw [hk]
    exact (List.drop_one _).symm
  · have hk : h.length + 1 - 30 = 0 := by omega
    rw [hk, List.drop_zero]

theorem pushHistory_length_le (h : List (Int × Int)) (p : Int × Int) (hle : h.length ≤ 30) :
    (pushHistory h p).length ≤ 30 := by
  simp only [pushHistory, List.length_append, List.length_singleton]
  split_ifs with hgt
  · simp only [List.length_tail, List.length_append, List.length_singleton]
    omega
  · simp only [List.length_append, List.length_singleton]
    omega

theorem foldPushHistory_drop (pts : List (Int × Int)) :
    ∀ h : List (Int × Int), h.length ≤ 30 →
      List.foldl pushHistory h pts = (h ++ pts).drop (h.length + pts.length - 30) := by
  induction pts with
  | nil =>
    intro h hle
    have hk : h.length + List.length ([] : List (Int × Int)) - 30 = 0 := by
      simp only [List.length_nil]
      omega
    simp only [List.foldl_nil, List.append_nil, hk, List.drop_zero]
  | cons p rest ih =>
    intro h hle
    rw [List.foldl_cons, pushHistory_eq_drop h p hle]
    have hlen2 : ((h ++ [p]).drop (h.length + 1 - 30)).length ≤ 30 := by
      simp only [List.length_drop, List.length_append, List.length_singleton]
      omega
    rw [ih _ hlen2]
    have hk : h.length + 1 - 30 ≤ (h ++ [p]).length := by
      simp only [List.length_append, List.length_singleton]
      omega
    rw [← List.drop_append_of_le_length hk, List.drop_drop]
    have harr : (h ++ [p]) ++ rest = h ++ p :: rest := by
      rw [List.append_assoc, List.singleton_append]
    rw [harr]
    congr 1
    simp only [List.length_drop, List.length_append, List.length_singleton, List.length_cons,
      List.length_nil]
    omega

theorem process_frame_history_single (s : CounterState) (d : Detection) :
    (process_frame s [d]).track_history =
      fun tid => if tid = d.track_id then pushHistory (s.track_history tid) (centroid d.box)
                 else s.track_history tid := by
  rw [process_frame_eq]
  simp only [List.foldl_cons, List.foldl_nil]
  rw [procDet_history]
  rfl

theorem processFrames_single_id_history (i c : Int) (cf : ℚ) (boxes : List Box) :
    ∀ s : CounterState,
      (processFrames s (boxes.map (fun b => [⟨i, c, b, cf⟩]))).track_history i =
        List.foldl pushHistory (s.track_history i) (boxes.map centroid) := by
  induction boxes with
  | nil => intro s; rfl
  | cons b rest ih =>
    intro s
    simp only [List.map_cons, List.foldl_cons]
    rw [processFrames_cons, ih]
    congr 1
    rw [process_frame_history_single]
    simp

theorem foldProcDet_history_le (dets : List Detection) :
    ∀ s : CounterState, (∀ tid, (s.track_history tid).length ≤ 30) →
      ∀ tid, ((List.foldl procDet s dets).track_history tid).length ≤ 30 := by
  induction dets with
  | nil => intro s hs; exact hs
  | cons d rest ih =>
    intro s hs
    rw [List.foldl_cons]
    refine ih (procDet s d) ?_
    intro tid
    rw [procDet_history]
    simp only []
    split_ifs with htid
    · exact pushHistory_length_le _ _ (hs tid)
    · exact hs tid

theorem runOps_history_le (ops : List Op) :
    ∀ s : CounterState, (∀ tid, (s.track_history tid).length ≤ 30) →
      ∀ tid, ((List.foldl applyOp s ops).track_history tid).length ≤ 30 := by
  induction ops with
  | nil => intro s hs; exact hs
  | cons op rest ih =>
    intro s hs
    rw [List.foldl_cons]
    refine ih _ ?_
    cases op with
    | frame dets =>
      intro tid
      show ((process_frame s dets).track_history tid).length ≤ 30
      rw [process_frame_eq]
      exact foldProcDet_history_le dets (clearFrame s) hs tid
    | reset => intro tid; simp [applyOp, resetCounter]
    | confirm =>
      intro tid
      simp only [applyOp, confirmRoi]
      split_ifs <;> exact hs tid
    | autoRhombus w hh => exact hs
    | autoRect w hh => exact hs

/-- C4: in every reachable state no trajectory history exceeds 30 points, and
after 40 sightings of one identity (one per frame, starting from an empty
history) its trajectory is exactly the 30 most recent centroids, oldest first
(the 10 oldest having been evicted FIFO), so its length is exactly 30. -/
theorem c4_history_bound :
    (∀ ops tid, ((runOps ops).track_history tid).length ≤ 30) ∧
    (∀ (s : CounterState) (i c : Int) (cf : ℚ) (boxes : List Box),
      boxes.length = 40 → s.track_history i = [] →
      (processFrames s (boxes.map (fun b => [⟨i, c, b, cf⟩]))).track_history i =
        (boxes.map centroid).drop 10 ∧
      ((processFrames s (boxes.map (fun b => [⟨i, c, b, cf⟩]))).track_history i).length = 30) := by
  constructor
  · intro ops tid
    exact runOps_history_le ops initState (fun _ => by simp [initState]) tid
  · intro s i c cf boxes hlen hhist
    have h1 : (processFrames s (boxes.map (fun b => [⟨i, c, b, cf⟩]))).track_history i =
        (boxes.map centroid).drop 10 := by
      rw [processFrames_single_id_history i c cf boxes s, hhist]
      rw [foldPushHistory_drop (boxes.map centroid) [] (by simp)]
      simp only [List.nil_append, List.length_nil, List.length_map, hlen]
    refine ⟨h1, ?_⟩
    rw [h1]
    simp only [List.length_drop, List.length_map, hlen]

/-- Witness for C4: the reachable-state bound at a concrete run, and the
40-sighting scenario at a concrete box sequence. -/
theorem c4_history_bound_witness :
    ((runOps [Op.frame [d0]]).track_history 1).length ≤ 30 ∧
    (List.replicate 40 d0.box).length = 40 ∧
    (processFrames initState
        ((List.replicate 40 d0.box).map (fun b => [⟨1, 2, b, 1⟩]))).track_history 1 =
      ((List.replicate 40 d0.box).map centroid).drop 10 :=
  ⟨c4_history_bound.1 [Op.frame [d0]] 1,
   by simp,
   (c4_history_bound.2 initState 1 2 1 (List.replicate 40 d0.box) (by simp) rfl).1⟩

/- ------------------------------------------------------------------ -/
/- C1: at-most-once counting per identity per session.                -/
/- ------------------------------------------------------------------ -/

theorem detFoldEvents_countP (dets : List Detection) :
    ∀ (s : CounterState) (a : Int),
      ((List.foldl detStep (s, []) dets).2).countP (fun e => decide (e.track_id = a)) =
        if a ∈ (List.foldl procDet s dets).seen_ids ∧ a ∉ s.seen_ids then 1 else 0 := by
  induction dets with
  | nil =>
    intro s a
    simp only [List.foldl_nil, List.countP_nil]
    rw [if_neg (fun hh => hh.2 hh.1)]
  | cons d rest ih =>
    intro s a
    rw [List.foldl_cons, List.foldl_cons]
    have hsplit : (List.foldl detStep (detStep (s, []) d) rest).2 =
        (processDetE s d).2.toList ++ (List.foldl detStep (procDet s d, []) rest).2 := by
      show (List.foldl detStep ((procDet s d), List.nil ++ (processDetE s d).2.toList) rest).2 = _
      rw [detFold_snd rest (procDet s d) (List.nil ++ (processDetE s d).2.toList)]
      simp
    rw [hsplit, List.countP_append, ih (procDet s d) a, procDet_event]
    have hmono : a ∈ (procDet s d).seen_ids →
        a ∈ (List.foldl procDet (procDet s d) rest).seen_ids := fun hm =>
      (foldProcDet_seen_iff rest (procDet s d) a).mpr (Or.inl hm)
    by_cases hc : is_vehicle_in_roi s d.box = true ∧ d.track_id ∉ s.seen_ids
    · rw [if_pos hc]
      have hins : (procDet s d).seen_ids = insert d.track_id s.seen_ids := by
        rw [procDet_seen, if_pos hc]
      by_cases ha : d.track_id = a
      · subst ha
        have hin : d.track_id ∈ (procDet s d).seen_ids := by
          rw [hins]; exact Finset.mem_insert_self _ _
        rw [if_neg (fun hh => hh.2 hin), if_pos ⟨hmono hin, hc.2⟩]
        simp
      · have hseeneq : a ∈ (procDet s d).seen_ids ↔ a ∈ s.seen_ids := by
          rw [hins, Finset.mem_insert]
          constructor
          · rintro (rfl | h)
            · exact absurd rfl ha
            · exact h
          · exact Or.inr
        have hcount0 : List.countP (fun e => decide (e.track_id = a))
            (Option.toList (some (CountEvent.mk d.track_id (className d.cls)
              (insert d.track_id s.seen_ids).card))) = 0 := by
          simp [ha]
        rw [hcount0, Nat.zero_add]
        by_cases hf : a ∈ (List.foldl procDet (procDet s d) rest).seen_ids
        · by_cases has : a ∈ s.seen_ids
          · rw [if_neg (fun hh => hh.2 (hseeneq.mpr has)), if_neg (fun hh => hh.2 has)]
          · rw [if_pos ⟨hf, fun hx => has (hseeneq.mp hx)⟩, if_pos ⟨hf, has⟩]
        · rw [if_neg (fun hh => hf hh.1), if_neg (fun hh => hf hh.1)]
    · rw [if_neg hc]
      have hseeneq2 : (procDet s d).seen_ids = s.seen_ids := by
        rw [procDet_seen, if_neg hc]
      simp only [Option.toList_none, List.countP_nil, Nat.zero_add]
      rw [hseeneq2]

theorem frameEvents_countP (s : CounterState) (dets : List Detection) (a : Int) :
    (frameEvents s dets).countP (fun e => decide (e.track_id = a)) =
      if a ∈ (process_frame s dets).seen_ids ∧ a ∉ s.seen_ids then 1 else 0 := by
  have h := detFoldEvents_countP dets (clearFrame s) a
  rw [process_frame_eq]
  exact h

theorem sessionEventsCountP (frames : List (List Detection)) :
    ∀ (s : CounterState) (a : Int),
      (sessionEvents s frames).countP (fun e => decide (e.track_id = a)) =
        if a ∈ (processFrames s frames).seen_ids ∧ a ∉ s.seen_ids then 1 else 0 := by
  induction frames with
  | nil =>
    intro s a
    simp only [sessionEvents, processFramesE, processFrames, List.foldl_nil, List.countP_nil]
    rw [if_neg (fun hh => hh.2 hh.1)]
  | cons f rest ih =>
    intro s a
    rw [sessionEvents_cons, List.countP_append, frameEvents_countP,
      ih (process_frame s f) a, processFrames_cons]
    have hmono : a ∈ (process_frame s f).seen_ids →
        a ∈ (processFrames (process_frame s f) rest).seen_ids := fun hm =>
      (processFrames_seen_iff rest (process_frame s f) a).mpr (Or.inl hm)
    have hgrow : a ∈ s.seen_ids → a ∈ (process_frame s f).seen_ids := fun hm =>
      (process_frame_seen_iff s f a).mpr (Or.inl hm)
    by_cases h1 : a ∈ (process_frame s f).seen_ids
    · by_cases h2 : a ∈ s.seen_ids
      · rw [if_neg (fun hh => hh.2 h2), if_neg (fun hh => hh.2 h1), if_neg (fun hh => hh.2 h2)]
      · rw [if_pos ⟨h1, h2⟩, if_neg (fun hh => hh.2 h1), if_pos ⟨hmono h1, h2⟩]
    · have h2 : a ∉ s.seen_ids := fun hx => h1 (hgrow hx)
      rw [if_neg (fun hh => h1 hh.1)]
      by_cases h3 : a ∈ (processFrames (process_frame s f) rest).seen_ids
      · rw [if_pos ⟨h3, h1⟩, if_pos ⟨h3, h2⟩]
      · rw [if_neg (fun hh => h3 hh.1), if_neg (fun hh => h3 hh.1)]

/-- C1: over any sequence of frames processed from a fresh session (empty
Counted-Set) with no intervening reset, an identity produces at most one count
event; it produces exactly one, and belongs to the Counted-Set at the end, if
and only if some detection carrying it is classified in-ROI on at least one of
the frames — regardless of how many frames it appears in-ROI. -/
theorem c1_at_most_once (s : CounterState) (frames : List (List Detection)) (a : Int)
    (hempty : s.seen_ids = (∅ : Finset Int)) :
    (sessionEvents s frames).countP (fun e => decide (e.track_id = a)) ≤ 1 ∧
    ((sessionEvents s frames).countP (fun e => decide (e.track_id = a)) = 1 ↔
      ∃ f ∈ frames, ∃ d ∈ f, d.track_id = a ∧ is_vehicle_in_roi s d.box = true) ∧
    (a ∈ (processFrames s frames).seen_ids ↔
      ∃ f ∈ frames, ∃ d ∈ f, d.track_id = a ∧ is_vehicle_in_roi s d.box = true) := by
  have hmem := processFrames_seen_iff frames s a
  rw [hempty] at hmem
  simp only [Finset.not_mem_empty, false_or] at hmem
  have hcnt := sessionEventsCountP frames s a
  rw [hempty] at hcnt
  simp only [Finset.not_mem_empty, not_false_eq_true, and_true] at hcnt
  refine ⟨?_, ?_, hmem⟩
  · rw [hcnt]
    split_ifs <;> omega
  · rw [hcnt]
    by_cases hm : a ∈ (processFrames s frames).seen_ids
    · rw [if_pos hm]
      exact iff_of_true rfl (hmem.mp hm)
    · rw [if_neg hm]
      constructor
      · intro h01
        exact absurd h01 (by omega)
      · intro hex
        exact absurd (hmem.mpr hex) hm

/-- Witness for C1: the identity of `d0` appears in-ROI on two frames (N = 2)
of a fresh session and is counted exactly once. -/
theorem c1_at_most_once_witness :
    (sessionEvents initState [[d0], [d0]]).countP (fun e => decide (e.track_id = 1)) = 1 ∧
    1 ∈ (processFrames initState [[d0], [d0]]).seen_ids := by
  have h := c1_at_most_once initState [[d0], [d0]] 1 rfl
  refine ⟨h.2.1.mpr ?_, h.2.2.mpr ?_⟩
  · exact ⟨[d0], by simp, d0, by simp, rfl, by decide⟩
  · exact ⟨[d0], by simp, d0, by simp, rfl, by decide⟩

end VehicleCounter
